import Mathlib

/-!
Verification of the dependency-extraction and package-assembly engine of the
ComfyUIforRunPod repository.  The Python sources under src/scripts are given a
shallow embedding: the filesystem is an explicit value threaded through the
functions, interactive input is an oracle record (the decision contract of the
specification), and external library collaborators (JSON decoding, hashing
primitives, the archive writer) are abstract function parameters.  All control
flow, string manipulation and search logic is translated directly from the
Python sources.
-/

namespace ComfyPack

/-! ## Python-style string primitives -/

/-- Lower-casing a string character by character, as Python str.lower does on
ASCII data (all literals compared in the sources are ASCII). -/
def strLower (s : String) : String := ⟨s.data.map Char.toLower⟩

/-- Python s.startswith(p). -/
def strStartsWith (s p : String) : Bool := p.data.isPrefixOf s.data

/-- Python s.endswith(p). -/
def strEndsWith (s p : String) : Bool := p.data.isSuffixOf s.data

/-- Bool test that the first list occurs contiguously inside the second. -/
def listIsInfix (needle : List Char) : List Char → Bool
  | [] => needle.isPrefixOf []
  | c :: cs => needle.isPrefixOf (c :: cs) || listIsInfix needle cs

/-- Python membership test: needle in haystack. -/
def strContains (hay needle : String) : Bool := listIsInfix needle.data hay.data

/-- Python s.replace(old, new) for one-character patterns. -/
def strReplaceChar (s : String) (old new : Char) : String :=
  ⟨s.data.map (fun c => if c = old then new else c)⟩

/-- Left-to-right non-overlapping replacement on character lists,
the semantics of Python str.replace for a non-empty pattern. -/
def listReplace (old new : List Char) : List Char → List Char
  | [] => []
  | c :: cs =>
    if old ≠ [] ∧ old.isPrefixOf (c :: cs) then
      new ++ listReplace old new (cs.drop (old.length - 1))
    else
      c :: listReplace old new cs
termination_by l => l.length
decreasing_by
  · simp only [List.length_drop, List.length_cons]
    omega
  · simp

/-- Python s.replace(old, new) (non-empty old in all call sites). -/
def strReplaceStr (s old new : String) : String :=
  if old.data = [] then s else ⟨listReplace old.data new.data s.data⟩

/-- Characters stripped by Python str.strip(). -/
def pyIsSpace (c : Char) : Bool :=
  c = ' ' || c = '\t' || c = '\n' || c = '\r' || c = Char.ofNat 11 || c = Char.ofNat 12

/-- Python s.strip(). -/
def pyStrip (s : String) : String :=
  ⟨((s.data.dropWhile pyIsSpace).reverse.dropWhile pyIsSpace).reverse⟩

/-- os.path.join for the flavours appearing in the sources (POSIX). -/
def pyJoin (a b : String) : String :=
  if strStartsWith b "/" then b
  else if a = "" then b
  else if strEndsWith a "/" then a ++ b
  else a ++ "/" ++ b

/-- os.path.basename: the part after the last slash. -/
def pyBasename (s : String) : String :=
  ⟨(s.data.reverse.takeWhile (· ≠ '/')).reverse⟩

/-- os.path.dirname: everything before the last slash, with trailing slashes
stripped unless the result is all slashes. -/
def pyDirname (s : String) : String :=
  let headPart : List Char := (s.data.reverse.dropWhile (· ≠ '/')).reverse
  if headPart = [] then ""
  else if headPart.all (· = '/') then ⟨headPart⟩
  else ⟨(headPart.reverse.dropWhile (· = '/')).reverse⟩

/-- os.path.splitext: the extension starts at the last dot of the basename,
where leading dots of the basename never begin an extension. -/
def pySplitExt (s : String) : String × String :=
  let cs := s.data
  let nameRev := cs.reverse.takeWhile (· ≠ '/')
  let extRevCand := nameRev.takeWhile (· ≠ '.')
  if extRevCand.length = nameRev.length then (s, "")
  else
    let stemRev := nameRev.drop (extRevCand.length + 1)
    if stemRev.any (· ≠ '.') then
      (⟨cs.take (cs.length - (extRevCand.length + 1))⟩, ⟨'.' :: extRevCand.reverse⟩)
    else (s, "")

/-- os.path.relpath for the shapes produced by the walks in the sources:
the path is the base itself or sits strictly below it. -/
def pyRelpath (p base : String) : String :=
  if p = base then "."
  else if strStartsWith p (base ++ "/") then p.drop (base.length + 1)
  else p

/-- Python path.split for grabbing the final slash-separated segment. -/
def lastSeg (s : String) : String :=
  ⟨(s.data.reverse.takeWhile (· ≠ '/')).reverse⟩

/-! ## Small list/dictionary helpers mirroring Python dict and set use -/

/-- Order-preserving duplicate removal; models building a Python set by
successive insertion and then listing it (an order refinement of the
unordered CPython set). -/
def dedupList {α : Type} [DecidableEq α] (l : List α) : List α :=
  l.foldl (fun acc x => if acc.contains x then acc else acc ++ [x]) []

/-- Insertion into an insertion-ordered dictionary: an existing key keeps its
position and gets the new value, a new key is appended — CPython dict
assignment semantics. -/
def dictInsert (d : List (String × String)) (k v : String) : List (String × String) :=
  if d.any (fun p => p.1 = k) then
    d.map (fun p => if p.1 = k then (k, v) else p)
  else d ++ [(k, v)]

/-- Python: key in dict. -/
def dictHasKey (d : List (String × String)) (k : String) : Bool :=
  d.any (fun p => p.1 = k)

/-- Python: dict[key] for a present key (none when absent). -/
def dictGet (d : List (String × String)) (k : String) : Option String :=
  (d.find? (fun p => p.1 = k)).map (·.2)

/-- Lexicographic character-list order, the order Python sorted uses on
strings of code points. -/
def listCharLe : List Char → List Char → Bool
  | [], _ => true
  | _ :: _, [] => false
  | a :: as, b :: bs =>
    if a.val < b.val then true
    else if b.val < a.val then false
    else listCharLe as bs

def strLeB (a b : String) : Bool := listCharLe a.data b.data

/-- Insertion sort by the string order above; models Python sorted(...). -/
def insertSorted (x : String) : List String → List String
  | [] => [x]
  | y :: ys => if strLeB x y then x :: y :: ys else y :: insertSorted x ys

def sortStrings (l : List String) : List String := l.foldr insertSorted []

/-! ## Filesystem model

A finite snapshot of the filesystem: regular files with their byte contents
and an explicit set of directories.  Enumeration order of os.listdir is
unspecified by the OS; the model fixes it as directories then files, in
snapshot order. -/

structure FS where
  files : List (String × List Nat)
  dirs : List String
deriving DecidableEq, Repr

def FS.isFile (fs : FS) (p : String) : Bool := fs.files.any (fun q => q.1 = p)

def FS.isDir (fs : FS) (p : String) : Bool := fs.dirs.contains p

def FS.pathExists (fs : FS) (p : String) : Bool := fs.isFile p || fs.isDir p

/-- Contents of a file (empty for a missing path, a case the sources guard). -/
def FS.read (fs : FS) (p : String) : List Nat :=
  ((fs.files.find? (fun q => q.1 = p)).map (·.2)).getD []

/-- os.path.getsize. -/
def FS.size (fs : FS) (p : String) : Nat := (fs.read p).length

/-- The name of q as a direct child of directory p, when it is one. -/
def childNameOf (p q : String) : Option String :=
  if strStartsWith q (p ++ "/") then
    let r := q.drop (p.length + 1)
    if r ≠ "" && !(strContains r "/") then some r else none
  else none

/-- os.listdir under the model's enumeration order. -/
def FS.listdir (fs : FS) (p : String) : List String :=
  (fs.dirs ++ fs.files.map (·.1)).filterMap (childNameOf p)

/-- os.walk, top-down; fuel bounds the directory depth and is always supplied
as more than the total number of directories in the snapshot. -/
def FS.walkAux (fs : FS) : Nat → String → List (String × List String × List String)
  | 0, _ => []
  | Nat.succ fuel, root =>
    let names := fs.listdir root
    let ds := names.filter (fun n => fs.isDir (pyJoin root n))
    let fls := names.filter (fun n => fs.isFile (pyJoin root n))
    (root, ds, fls) :: ds.flatMap (fun d => fs.walkAux fuel (pyJoin root d))

def FS.walk (fs : FS) (root : String) : List (String × List String × List String) :=
  fs.walkAux (fs.dirs.length + 1) root

/-- os.makedirs(p, exist_ok=True). -/
def FS.mkdirs (fs : FS) (p : String) : FS :=
  if fs.dirs.contains p then fs else { fs with dirs := fs.dirs ++ [p] }

/-- Creating or overwriting a file. -/
def FS.writeFile (fs : FS) (p : String) (content : List Nat) : FS :=
  if fs.files.any (fun q => q.1 = p) then
    { fs with files := fs.files.map (fun q => if q.1 = p then (p, content) else q) }
  else { fs with files := fs.files ++ [(p, content)] }

/-- shutil.copy2 at the content level. -/
def FS.copy2 (fs : FS) (src dst : String) : FS := fs.writeFile dst (fs.read src)

/-- shutil.rmtree. -/
def FS.removeTree (fs : FS) (p : String) : FS :=
  { files := fs.files.filter (fun q => !(q.1 = p || strStartsWith q.1 (p ++ "/"))),
    dirs := fs.dirs.filter (fun q => !(q = p || strStartsWith q (p ++ "/"))) }

/-! ## JSON documents

The decoded workflow document.  Numbers are modelled as integers; no claim
inspects numeric widget values. -/

inductive JVal where
  | jstr (s : String)
  | jnum (n : Int)
  | jbool (b : Bool)
  | jnull
  | jarr (xs : List JVal)
  | jobj (kvs : List (String × JVal))
deriving Repr

/-- Python dict lookup on a decoded object (keys unique in real documents). -/
def jlookup (kvs : List (String × JVal)) (k : String) : Option JVal :=
  (kvs.find? (fun kv => kv.1 = k)).map (·.2)

/-- Python truthiness of a decoded value. -/
def jTruthy : JVal → Bool
  | .jstr s => s ≠ ""
  | .jnum n => n ≠ 0
  | .jbool b => b
  | .jnull => false
  | .jarr xs => !xs.isEmpty
  | .jobj kvs => !kvs.isEmpty

/-! ## Plugin catalog builder
(simplified_workflow_parser.WorkflowParser._get_custom_node_packages)

One installed plugin folder, with the identifier strings the builder extracts
from its metadata files and from the identifier-declaration regex patterns in
its Python sources.  The two lists abstract only the text decoding and regex
machinery; every registration step below is from the source. -/

structure PluginFolder where
  name : String
  metaIds : List String
  pyIds : List String
deriving DecidableEq, Repr

def commonPrefixes : List String := ["", "comfyui-", "comfyui_", "sd-", "sd_"]

def commonSuffixes : List String := ["", "-nodes", "_nodes", "-comfyui", "_comfyui"]

/-- All catalog registrations performed while scanning one plugin folder. -/
def catalogStep (comfyuiPath : String) (d : List (String × String)) (f : PluginFolder) :
    List (String × String) :=
  let packagePath := pyJoin (pyJoin comfyuiPath "custom_nodes") f.name
  let nameLower := strLower f.name
  let d := dictInsert d nameLower packagePath
  let d := f.metaIds.foldl (fun a i => dictInsert a (strLower i) packagePath) d
  let d := f.pyIds.foldl (fun a m =>
    let a := dictInsert a (strLower m) packagePath
    if strContains m "/" then a
    else dictInsert a (nameLower ++ "/" ++ strLower m) packagePath) d
  commonPrefixes.foldl (fun a pre =>
    commonSuffixes.foldl (fun a suf =>
      let variation := pre ++ nameLower ++ suf
      let a := if variation ≠ nameLower then dictInsert a variation packagePath else a
      dictInsert a ("unknown/" ++ variation) packagePath) a) d

/-- The full identifier → install-path catalog. -/
def buildCatalog (comfyuiPath : String) (folders : List PluginFolder) :
    List (String × String) :=
  folders.foldl (catalogStep comfyuiPath) []

/-! ## Plugin identifier resolution
(simplified_workflow_parser.WorkflowParser.parse_workflow, resolution loop)

The outcome is tagged with the strategy that produced it: the direct
dictionary lookup, or the fuzzy scan over catalog items. -/

inductive NodeResolution where
  | exact (pkg path : String)
  | fuzzy (pkg path : String)
  | unresolved
deriving DecidableEq, Repr

def NodeResolution.isExact : NodeResolution → Bool
  | .exact _ _ => true
  | _ => false

def NodeResolution.isFuzzy : NodeResolution → Bool
  | .fuzzy _ _ => true
  | _ => false

/-- The per-identifier fuzzy condition of the resolution loop. -/
def fuzzyMatches (nodeId pid : String) : Bool :=
  strContains pid nodeId || strContains nodeId pid ||
    strReplaceChar nodeId '-' '_' = strReplaceChar pid '-' '_' ||
    lastSeg nodeId = lastSeg pid

/-- Resolution of one candidate identifier against the catalog. -/
def resolveNodeId (catalog : List (String × String)) (nodeId : String) : NodeResolution :=
  match dictGet catalog nodeId with
  | some path => .exact (pyBasename path) path
  | none =>
    match catalog.find? (fun p => fuzzyMatches nodeId p.1) with
    | some (_, path) => .fuzzy (pyBasename path) path
    | none => .unresolved

/-! ## Workflow extraction (simplified_workflow_parser.WorkflowParser.parse_workflow) -/

structure ParseResult where
  customNodes : List (String × String)
  modelReferences : List String
deriving DecidableEq, Repr

/-- The top-level key scan used when the document has neither a nodes key nor
a nested workflow object. -/
def scanTop (kvs : List (String × JVal)) : Option JVal :=
  kvs.findSome? fun kv =>
    match kv.2 with
    | .jarr (y :: ys) =>
      match y with
      | .jobj o => if (jlookup o "type").isSome then some (.jarr (y :: ys)) else none
      | _ => none
    | _ => none

/-- The format dispatch locating the node array of a workflow document. -/
def findNodes (workflow : JVal) : Option JVal :=
  match workflow with
  | .jobj kvs =>
    match jlookup kvs "nodes" with
    | some v => some v
    | none =>
      match jlookup kvs "workflow" with
      | some (.jobj w) =>
        match jlookup w "nodes" with
        | some v => some v
        | none => scanTop kvs
      | _ => scanTop kvs
  | .jarr (x :: xs) =>
    match x with
    | .jobj _ => some (.jarr (x :: xs))
    | _ => none
  | _ => none

def denylistValues : List String := ["randomize", "true", "false", "enable", "disable", "none"]

def modelExtensions : List String :=
  [".safetensors", ".ckpt", ".pt", ".pth", ".bin", ".onnx", ".msgpack"]

/-- The widget-value filter of the extraction loop: only non-empty strings,
not a sentinel literal, at least five characters, carrying a model
extension. -/
def keepModelValue : JVal → Option String
  | .jstr s =>
    if s = "" then none
    else if denylistValues.contains (strLower s) then none
    else if s.length < 5 then none
    else if modelExtensions.any (fun e => strEndsWith (strLower s) e) then some s
    else none
  | _ => none

/-- The widgets_values list of a node, when present and a list. -/
def nodeWidgetValues : JVal → List JVal
  | .jobj kvs =>
    match jlookup kvs "widgets_values" with
    | some (.jarr xs) => xs
    | _ => []
  | _ => []

/-- Candidate identifiers read from a node's properties object. -/
def nodePropIds : JVal → List String
  | .jobj kvs =>
    match jlookup kvs "properties" with
    | some (.jobj props) =>
      ["cnr_id", "aux_id", "Node name for S&R", "custom_node_id", "node_id"].filterMap
        (fun k =>
          match jlookup props k with
          | some v =>
            if jTruthy v then
              match v with
              | .jstr s => if pyStrip s ≠ "" then some (strLower s) else none
              | _ => none
            else none
          | none => none)
    | _ => []
  | _ => []

/-- The lower-cased type tag of a node, when it is a string.  A node whose
type is present but not a string makes the real loop raise; see
parseWorkflow. -/
def nodeTypeOf : JVal → Option String
  | .jobj kvs =>
    match jlookup kvs "type" with
    | some (.jstr s) => some (strLower s)
    | _ => none
  | _ => none

def builtinNodeTypes : List String := ["note", "reroute", "primitive", "output", "input"]

/-- Identifier candidates derived from one node type string. -/
def typeDerivedIds (t : String) : List String :=
  if builtinNodeTypes.contains t then []
  else
    let parts := t.splitOn "_"
    [t] ++
      (if parts.length > 1 then
        let p0 := parts.headD ""
        [p0, p0 ++ "/" ++ t] ++
          (if parts.length ≥ 3 then
            let p01 := p0 ++ "_" ++ parts.getD 1 ""
            [p01, p01 ++ "/" ++ t]
          else [])
      else [])

/-- True when the node loop would raise on this node: a type tag that is
present but not a string has .lower() called on it. -/
def nodeTypeBad : JVal → Bool
  | .jobj kvs =>
    match jlookup kvs "type" with
    | some (.jstr _) => false
    | some _ => true
    | none => false
  | _ => false

/-- The body of the extraction once a node array has been found. -/
def extractFromNodes (catalog : List (String × String)) (nodes : List JVal) : ParseResult :=
  let propIds := nodes.flatMap nodePropIds
  let nodeTypes := dedupList (nodes.filterMap nodeTypeOf)
  let customNodeIds := dedupList (propIds ++ nodeTypes.flatMap typeDerivedIds)
  let resolved := dedupList (customNodeIds.filterMap (fun nid =>
    match resolveNodeId catalog nid with
    | .exact pkg path => some (pkg, path)
    | .fuzzy pkg path => some (pkg, path)
    | .unresolved => none))
  let refs := dedupList ((nodes.flatMap nodeWidgetValues).filterMap keepModelValue)
  ⟨resolved, refs⟩

/-- parse_workflow of the simplified parser over a decoded document.  An
unidentifiable structure returns the empty result; a node loop that raises
(non-string type tag) also ends with the untouched empty result, because the
result fields are only assigned after the loop. -/
def parseWorkflow (catalog : List (String × String)) (workflow : JVal) : ParseResult :=
  match findNodes workflow with
  | none => ⟨[], []⟩
  | some nodesVal =>
    match nodesVal with
    | .jarr nodes =>
      if nodes.any nodeTypeBad then ⟨[], []⟩
      else extractFromNodes catalog nodes
    | _ => ⟨[], []⟩

/-- The claim's characterization of a document with no identifiable node
array, stated as a decidable predicate following the specification's words
(the list case matches the source's first-element check). -/
def specNoNodeArray (wf : JVal) : Bool :=
  match wf with
  | .jobj kvs =>
    (jlookup kvs "nodes").isNone &&
    (match jlookup kvs "workflow" with
     | some (.jobj w) => (jlookup w "nodes").isNone
     | _ => true) &&
    kvs.all (fun kv =>
      match kv.2 with
      | .jarr (y :: _) =>
        match y with
        | .jobj o => (jlookup o "type").isNone
        | _ => true
      | _ => true)
  | .jarr xs =>
    match xs with
    | [] => true
    | y :: _ =>
      match y with
      | .jobj _ => false
      | _ => true
  | _ => true

/-! ## Filename-based model type classifier
(workflow_parser.WorkflowParser._guess_model_type_from_filename)

The Python elif chains for .pt/.pth and .onnx have no else branch and fall
through to the trailing return of checkpoints; that fall-through is written
here as the explicit final alternative of each chain. -/

def guessModelTypeFromFilename (filename0 : String) : Option String :=
  let f := strLower filename0
  if strEndsWith f ".safetensors" || strEndsWith f ".ckpt" then
    if strContains f "lora" then some "loras"
    else if strContains f "vae" then some "vae"
    else if strContains f "embedding" || strContains f "embed" ||
        strContains f "/embeddings/" then some "embeddings"
    else if strContains f "controlnet" || strContains f "control_" ||
        strContains f "/control/" then some "controlnet"
    else if strContains f "inpaint" &&
        !(strContains f "sd15_inpaint" || strContains f "sd_inpaint") then
      some "controlnet"
    else if strContains f "clip" &&
        (strContains f "vision" || strContains f "/clip_vision/") then
      some "clip_vision"
    else if strContains f "clip" || strContains f "/clip/" then some "clip"
    else some "checkpoints"
  else if strEndsWith f ".pt" || strEndsWith f ".pth" then
    if strContains f "sam" || strContains f "/sam/" then some "sams"
    else if strContains f "gfpgan" || strContains f "codeformer" ||
        strContains f "face" || strContains f "/facerestore/" then
      some "facerestore_models"
    else if strContains f "upscale" || strContains f "esrgan" ||
        strContains f "/upscaler/" || strContains f "/upscale_models/" then
      some "upscale_models"
    else some "checkpoints"
  else if strEndsWith f ".onnx" then
    if strContains f "inswapper" || strContains f "insight" ||
        strContains f "/insightface/" then some "insightface"
    else some "checkpoints"
  else some "checkpoints"

/-! ## Model path resolution (workflow_parser.WorkflowParser._resolve_model_path)

The search-path table maps a model type to its ordered base directories. -/

abbrev ModelPaths : Type := List (String × List String)

def tblHasKey (tbl : ModelPaths) (k : String) : Bool :=
  tbl.any (fun p => p.1 = k)

def mpFind (tbl : ModelPaths) (k : String) : List String :=
  ((tbl.find? (fun p => p.1 = k)).map (·.2)).getD []

/-- Availability check with the alternate-type fallback performed before the
cascade starts. -/
def chooseModelType (tbl : ModelPaths) (t : String) : Option String :=
  if tblHasKey tbl t then some t
  else
    let alts :=
      if t = "checkpoints" then ["checkpoint", "stable-diffusion", "sd"]
      else if t = "loras" then ["lora", "locon", "lycoris"]
      else if t = "vae" then ["vae_approx", "vaes"]
      else []
    match alts.find? (fun a => tblHasKey tbl a) with
    | some a => some a
    | none => none

/-- The candidate filename variations, in construction order: the original,
case and space/underscore variants, then the three guessed extensions when
the name does not already end with each. -/
def possibleFilenames (b : String) : List String :=
  ([some b,
    some (strLower b),
    some (strReplaceChar b ' ' '_'),
    some (strReplaceChar (strLower b) ' ' '_'),
    some (strReplaceChar b '_' ' '),
    some (strReplaceChar (strLower b) '_' ' '),
    if strEndsWith b ".safetensors" then none
      else some ((pySplitExt b).1 ++ ".safetensors"),
    if strEndsWith b ".ckpt" then none else some ((pySplitExt b).1 ++ ".ckpt"),
    if strEndsWith b ".pt" then none else some ((pySplitExt b).1 ++ ".pt")]).filterMap id

/-- First existing candidate inside one directory, in candidate order. -/
def existsFirst (fs : FS) (dir : String) (possible : List String) : Option String :=
  possible.findSome? fun n =>
    let p := pyJoin dir n
    if fs.pathExists p then some p else none

/-- Step 1: exact relative path under each base directory. -/
def resolveStep1 (fs : FS) (bases : List String) (modelName : String) : Option String :=
  bases.findSome? fun base =>
    let p := pyJoin base modelName
    if fs.pathExists p then some p else none

/-- Step 2: exact subdirectory, then candidate filenames inside it. -/
def resolveStep2 (fs : FS) (bases : List String) (modelSubdir : String)
    (possible : List String) : Option String :=
  bases.findSome? fun base =>
    let pd := pyJoin base modelSubdir
    if fs.isDir pd then existsFirst fs pd possible else none

/-- Step 3: flattened candidate filenames directly under each base
directory. -/
def resolveStep3 (fs : FS) (bases : List String) (possible : List String) :
    Option String :=
  bases.findSome? fun base => existsFirst fs base possible

/-- Step 4: case-insensitive subdirectory-name match, then candidates. -/
def resolveStep4 (fs : FS) (bases : List String) (modelSubdir : String)
    (possible : List String) : Option String :=
  bases.findSome? fun base =>
    if !fs.pathExists base then none
    else
      (fs.listdir base).findSome? fun item =>
        if fs.isDir (pyJoin base item) && strLower item = strLower modelSubdir then
          existsFirst fs (pyJoin base item) possible
        else none

/-- Step 5: one level of immediate subdirectories, candidates first, then
(when a subpath was given) the subpath nested one level deeper. -/
def resolveStep5 (fs : FS) (bases : List String) (hasSubdir : Bool)
    (modelSubdir : String) (possible : List String) : Option String :=
  bases.findSome? fun base =>
    if !fs.pathExists base then none
    else
      (fs.listdir base).findSome? fun item =>
        let subdir := pyJoin base item
        if fs.isDir subdir then
          match existsFirst fs subdir possible with
          | some p => some p
          | none =>
            if hasSubdir then
              let nested := pyJoin subdir modelSubdir
              if fs.isDir nested then existsFirst fs nested possible else none
            else none
        else none

/-- The filename test of the recursive searches: literal membership among the
candidates, or case-insensitive membership. -/
def fileMatchesCandidates (possible : List String) (file : String) : Bool :=
  possible.contains file || (possible.map strLower).contains (strLower file)

/-- Step 6: unbounded recursive walk, then (for subpath references) a walk
looking for a directory whose name matches the subpath's last segment. -/
def resolveStep6 (fs : FS) (bases : List String) (hasSubdir : Bool)
    (modelSubdir : String) (possible : List String) : Option String :=
  bases.findSome? fun base =>
    if !fs.pathExists base then none
    else
      let part1 := (fs.walk base).findSome? fun entry =>
        entry.2.2.findSome? fun file =>
          if fileMatchesCandidates possible file then
            let found := pyJoin entry.1 file
            if hasSubdir then
              let relDir := pyRelpath entry.1 base
              if strContains (strLower relDir) (strLower modelSubdir) ||
                  strLower (pyBasename relDir) = strLower (pyBasename modelSubdir) then
                some found
              else none
            else some found
          else none
      match part1 with
      | some p => some p
      | none =>
        if hasSubdir then
          (fs.walk base).findSome? fun entry =>
            entry.2.1.findSome? fun dirName =>
              if strLower dirName = strLower (pyBasename modelSubdir) then
                existsFirst fs (pyJoin entry.1 dirName) possible
              else none
        else none

/-- The fixed alternate-category table of step 7. -/
def alternateTypes (t : String) : List String :=
  if t = "checkpoints" then ["loras", "vae", "diffusion_models"]
  else if t = "loras" then ["checkpoints", "embedding"]
  else if t = "vae" then ["checkpoints"]
  else if t = "embedding" then ["loras"]
  else if t = "controlnet" then ["checkpoints"]
  else []

/-- Step 7: the retry against alternate categories — subdirectory match,
direct candidates, then a recursive filename walk, per alternate base. -/
def resolveStep7 (fs : FS) (tbl : ModelPaths) (modelType : String) (hasSubdir : Bool)
    (modelSubdir : String) (possible : List String) : Option String :=
  (alternateTypes modelType).findSome? fun altType =>
    if tblHasKey tbl altType then
      (mpFind tbl altType).findSome? fun base =>
        let bySubdir :=
          if hasSubdir then
            let pd := pyJoin base modelSubdir
            if fs.isDir pd then existsFirst fs pd possible else none
          else none
        match bySubdir with
        | some p => some p
        | none =>
          match existsFirst fs base possible with
          | some p => some p
          | none =>
            if fs.pathExists base then
              (fs.walk base).findSome? fun entry =>
                entry.2.2.findSome? fun file =>
                  if fileMatchesCandidates possible file then
                    some (pyJoin entry.1 file)
                  else none
            else none
    else none

/-- _resolve_model_path: the absolute-path special case, type availability,
separator normalization, then the seven-stage cascade. -/
def resolveModelPath (fs : FS) (tbl : ModelPaths) (modelType0 modelName0 : String) :
    Option String :=
  if strStartsWith modelName0 "/" && fs.pathExists modelName0 then some modelName0
  else
    match chooseModelType tbl modelType0 with
    | none => none
    | some mt =>
      let modelType := strLower mt
      let modelName :=
        if strContains modelName0 "\\" then strReplaceStr modelName0 "\\\\" "\\"
        else modelName0
      let hasSubdir := strContains modelName "/" || strContains modelName "\\"
      let modelSubdir := if hasSubdir then pyDirname modelName else ""
      let baseFilename := if hasSubdir then pyBasename modelName else modelName
      let possible := possibleFilenames baseFilename
      let bases := mpFind tbl modelType
      match resolveStep1 fs bases modelName with
      | some p => some p
      | none =>
      match (if hasSubdir then resolveStep2 fs bases modelSubdir possible else none) with
      | some p => some p
      | none =>
      match resolveStep3 fs bases possible with
      | some p => some p
      | none =>
      match (if hasSubdir then resolveStep4 fs bases modelSubdir possible else none) with
      | some p => some p
      | none =>
      match resolveStep5 fs bases hasSubdir modelSubdir possible with
      | some p => some p
      | none =>
      match resolveStep6 fs bases hasSubdir modelSubdir possible with
      | some p => some p
      | none => resolveStep7 fs tbl modelType hasSubdir modelSubdir possible

/-! ## Package creator (interactive_package_creator.InteractivePackageCreator) -/

def MODEL_TYPES : List (String × String) :=
  [("checkpoints", "Stable Diffusion checkpoint"),
   ("loras", "LoRA model"),
   ("vae", "VAE model"),
   ("controlnet", "ControlNet model"),
   ("embeddings", "Textual Inversion embedding"),
   ("upscale_models", "Upscaler model"),
   ("facerestore_models", "Face restoration model"),
   ("insightface", "InsightFace model"),
   ("clip", "CLIP model"),
   ("clip_vision", "CLIP Vision model"),
   ("hypernetworks", "Hypernetwork"),
   ("ultralytics", "Ultralytics/YOLO model"),
   ("sams", "Segment Anything model")]

/-! ### fnmatch

Shell-style pattern matching as fnmatch.fnmatch performs it on POSIX
(case-preserving); the skip patterns of the sources use only literals and
the star wildcard. -/

def globMatch : List Char → List Char → Bool
  | [], s => s.isEmpty
  | '*' :: ps, s => (List.range (s.length + 1)).any (fun k => globMatch ps (s.drop k))
  | '?' :: ps, s =>
    match s with
    | [] => false
    | _ :: cs => globMatch ps cs
  | p :: ps, s =>
    match s with
    | [] => false
    | c :: cs => p = c && globMatch ps cs

def fnmatchB (name pattern : String) : Bool := globMatch pattern.data name.data

/-- Directory names pruned in place during the filtered copy's walk. -/
def skipDirsList : List String :=
  [".git", "__pycache__", ".github", ".pytest_cache", ".vscode",
   "node_modules", "dist", "build", ".ipynb_checkpoints", "venv",
   "env", ".env", ".venv", ".mypy_cache", ".ruff_cache", ".egg-info",
   "__MACOSX", ".DS_Store"]

/-- File patterns skipped during the filtered copy. -/
def skipPatternsList : List String :=
  ["*.pyc", "*.pyo", "*.so", "*.egg", "*.whl", "*.zip", "*.tar.gz",
   "*.log", "*.db", "*.sqlite", "*.swp", "*~", "*.bak", "*.tmp",
   "*.pth", "*.onnx", ".DS_Store", "Thumbs.db", ".gitignore",
   ".gitattributes", ".gitmodules", "*.png", "*.jpg", "*.jpeg",
   "*.webp", "*.gif", "*.mp4", "*.mp3", "*.avi", "*.mov",
   ".env*", "*.o", "*.a", "*.dll", "*.exe"]

/-- The size ceiling of the filtered copy: 100 MiB. -/
def maxCopyFileSize : Nat := 100 * 1024 * 1024

/-- Extensions always kept regardless of size. -/
def keepExtensions : List String :=
  [".py", ".txt", ".md", ".json", ".yaml", ".yml", ".html", ".js", ".css"]

/-- The per-file filter of _copy_tree_filtered: pattern denylist first, then
the size ceiling with the always-keep exception. -/
def fileKeepB (name : String) (content : List Nat) : Bool :=
  !(skipPatternsList.any (fun pat => fnmatchB name pat)) &&
    (content.length ≤ maxCopyFileSize ||
      keepExtensions.any (fun e => strEndsWith name e))

/-- The walk of _copy_tree_filtered: os.walk with the denylisted directory
names pruned in place, its per-file pattern and size filters applied, and
every kept file reported with its relative directory components.  Fuel
bounds the directory depth, as in FS.walk. -/
def copyWalk (fs : FS) : Nat → String → List (List String × String × List Nat)
  | 0, _ => []
  | Nat.succ fuel, root =>
    let names := fs.listdir root
    let ds := (names.filter (fun n => fs.isDir (pyJoin root n))).filter
      (fun d => !skipDirsList.contains d)
    let fls := names.filter (fun n => fs.isFile (pyJoin root n))
    ((fls.filter (fun n => fileKeepB n (fs.read (pyJoin root n)))).map
        (fun n => ([], n, fs.read (pyJoin root n)))) ++
      ds.flatMap (fun d =>
        (copyWalk fs fuel (pyJoin root d)).map (fun e => (d :: e.1, e.2.1, e.2.2)))

/-- The files _copy_tree_filtered takes from a source directory. -/
def copyTreeEntries (fs : FS) (src : String) : List (List String × String × List Nat) :=
  copyWalk fs (fs.dirs.length + 1) src

/-- _copy_tree_filtered as a filesystem transformation: destination
directories are created and every kept file is written under dst. -/
def copyTreeFilteredFS (fs : FS) (src dst : String) : FS :=
  (copyTreeEntries fs src).foldl
    (fun f e =>
      let destDir := e.1.foldl pyJoin dst
      ((f.mkdirs destDir).writeFile (pyJoin destDir e.2.1) e.2.2))
    (fs.mkdirs dst)

/-! ### Requirements collection (RequirementsCollector) -/

/-- Continuation absorption of process_requirements_file: while the line
ends with a backslash, drop it and append the stripped next physical line;
an exhausted file keeps dropping trailing backslashes against the empty
string. -/
def absorbCont : String → List String → String × List String
  | line, [] => (⟨(line.data.reverse.dropWhile (· = '\\')).reverse⟩, [])
  | line, n :: rs =>
    if strEndsWith line "\\" then absorbCont (⟨line.data.dropLast⟩ ++ pyStrip n) rs
    else (line, n :: rs)

theorem absorbCont_snd_length (line : String) (rest : List String) :
    (absorbCont line rest).2.length ≤ rest.length := by
  induction rest generalizing line with
  | nil => simp [absorbCont]
  | cons n rs ih =>
    simp only [absorbCont]
    split
    · exact Nat.le_trans (ih _) (Nat.le_succ _)
    · simp

/-- Entry extraction from the physical lines of one requirements file
(process_requirements_file: blank and comment skipping, continuation
handling, trailing-comment removal). -/
def processReqLines : List String → List String
  | [] => []
  | l :: rest =>
    let line := pyStrip l
    if line = "" || strStartsWith line "#" then processReqLines rest
    else
      let lr := absorbCont line rest
      let line2 :=
        if strContains lr.1 "#" then
          pyStrip ⟨lr.1.data.takeWhile (· ≠ '#')⟩
        else lr.1
      if line2 = "" then processReqLines lr.2
      else line2 :: processReqLines lr.2
termination_by l => l.length
decreasing_by
  all_goals simp only [List.length_cons]
  all_goals first
    | omega
    | exact Nat.lt_succ_of_le (absorbCont_snd_length _ _)

/-! ### Assembly state machine (InteractivePackageCreator.create_package) -/

/-- One deferred-model manifest entry, the fields written by create_package
into external_models. -/
structure ExtModel where
  name : String
  mtype : String
  path : Option String
  url : String
  hash : String
  size : Nat
deriving DecidableEq, Repr

/-- The mutable assembly data: the filesystem, the deferred list and the
included-models mapping. -/
structure AssemblyState where
  fs : FS
  externalModels : List ExtModel
  modelsProcessed : List (String × List String)
deriving DecidableEq, Repr

/-- The interactive decision contract (specification §6): the prompting UI
is an external collaborator supplying raw answers. oversized returns the raw
choice string and the URL the user would type for choice 2. -/
structure UI where
  overwrite : Bool
  discover : List String → List (String × List (String × String))
  oversized : String → String → String × String
  cleanup : Bool

/-- External library collaborators: content hashing (hashlib.md5 hexdigest
of the full content — the chunked update loop of _calculate_file_hash
computes the digest of the concatenated chunks), JSON decoding, text
decoding into physical lines, serializers and the archive writer. -/
structure Ext where
  md5hex : List Nat → String
  jsonOf : List Nat → Option JVal
  textLines : List Nat → List String
  encodeApiKey : String → List Nat
  encodeConfig : String → List String → List ExtModel → List String →
    List (String × List String) → List Nat
  renderReadme : String → String → List String → List (String × List String) →
    List ExtModel → List Nat
  zipBytes : List (String × List Nat) → List Nat

/-- _calculate_file_hash. -/
def calculateFileHash (md5hex : List Nat → String) (fs : FS) (p : String) : String :=
  md5hex (fs.read p)

/-- Appending a model name under its category in the included-models map. -/
def appendProcessed (m : List (String × List String)) (mtype name : String) :
    List (String × List String) :=
  if m.any (fun p => p.1 = mtype) then
    m.map (fun p => if p.1 = mtype then (p.1, p.2 ++ [name]) else p)
  else m ++ [(mtype, [name])]

/-- Initialising models_processed[model_type] = [] before a category's
list is walked. -/
def initProcessed (m : List (String × List String)) (mtype : String) :
    List (String × List String) :=
  if m.any (fun p => p.1 = mtype) then
    m.map (fun p => if p.1 = mtype then (p.1, []) else p)
  else m ++ [(mtype, [])]

/-- The body of the per-model loop of create_package: existence and size
checks, destination computation, and the include / defer-with-URL / skip
decision for oversized models. -/
def processOneModel (md5hex : List Nat → String) (sizeThreshold : Nat) (ui : UI)
    (tempDir mtype : String) (st : AssemblyState) (m : String × String) :
    AssemblyState :=
  let modelName := m.1
  let modelPath := m.2
  if modelPath = "" then st
  else if !st.fs.pathExists modelPath then st
  else
    let modelSize := st.fs.size modelPath
    let destDir0 := pyJoin (pyJoin tempDir "models") mtype
    let hasSub := strContains modelName "/" || strContains modelName "\\"
    let relPath := if hasSub then modelName else pyBasename modelName
    let destDir := if hasSub then pyJoin destDir0 (pyDirname modelName) else destDir0
    let fs1 := if hasSub then st.fs.mkdirs destDir else st.fs
    let destPath := pyJoin destDir (pyBasename relPath)
    if modelSize > sizeThreshold then
      let choice := ui.oversized mtype modelName
      if choice.1 = "1" then
        { st with fs := fs1.copy2 modelPath destPath,
                  modelsProcessed := appendProcessed st.modelsProcessed mtype modelName }
      else if choice.1 = "2" then
        if choice.2 ≠ "" then
          { st with fs := fs1,
                    externalModels := st.externalModels ++
                      [{ name := pyBasename modelName, mtype := mtype,
                         path := if hasSub then some relPath else none,
                         url := choice.2,
                         hash := calculateFileHash md5hex fs1 modelPath,
                         size := modelSize }] }
        else { st with fs := fs1 }
      else { st with fs := fs1 }
    else
      { st with fs := fs1.copy2 modelPath destPath,
                modelsProcessed := appendProcessed st.modelsProcessed mtype modelName }

/-- The model-processing stage: per category, skip empty lists, initialise
the category's included list and run the per-model body. -/
def processModels (md5hex : List Nat → String) (sizeThreshold : Nat) (ui : UI)
    (tempDir : String) (st : AssemblyState)
    (toProcess : List (String × List (String × String))) : AssemblyState :=
  toProcess.foldl
    (fun st cat =>
      if cat.2.isEmpty then st
      else
        cat.2.foldl (processOneModel md5hex sizeThreshold ui tempDir cat.1)
          { st with modelsProcessed := initProcessed st.modelsProcessed cat.1 })
    st

/-- Requirements aggregation over the copied plugin directories: the root
requirements.txt first, then every requirements.txt found by the walk, each
file processed once, then deduplicated and sorted. -/
def collectAllReqs (ext : Ext) (fs : FS)
    (nodesList : List (String × String)) : List String :=
  let reqFiles := nodesList.foldl
    (fun acc nd =>
      let rootReq := pyJoin nd.2 "requirements.txt"
      let acc := if fs.pathExists rootReq && !acc.contains rootReq then acc ++ [rootReq] else acc
      (fs.walk nd.2).foldl
        (fun acc entry =>
          entry.2.2.foldl
            (fun acc f =>
              if strLower f = "requirements.txt" then
                let p := pyJoin entry.1 f
                if acc.contains p then acc else acc ++ [p]
              else acc)
            acc)
        acc)
    []
  sortStrings (dedupList (reqFiles.flatMap (fun p => processReqLines (ext.textLines (fs.read p)))))

/-- The arguments of create_package, together with the ambient paths the
creator object carries (the ComfyUI root, the directory of the scripts, the
working directory used for the default output location). -/
structure PkgArgs where
  workflowPath : String
  outputName : Option String
  outputDir : Option String
  civitaiApiKey : Option String
  sizeThreshold : Nat
  includeManager : Bool
  comfyuiPath : String
  scriptDir : String
  cwd : String

inductive CreateOutcome where
  | made (zipPath : String)
  | cancelled
  | fileNotFound
deriving DecidableEq, Repr

/-- create_package: the missing-workflow guard, directory scaffolding,
workflow copy, dependency extraction, plugin copying with requirements
aggregation, the model-processing stage, manifest and README emission, and
the archive hand-off. -/
def createPackage (ext : Ext) (ui : UI) (catalog : List (String × String))
    (fs0 : FS) (a : PkgArgs) : FS × CreateOutcome :=
  if !fs0.pathExists a.workflowPath then (fs0, .fileNotFound)
  else
    let outputName :=
      match a.outputName with
      | some n => if n = "" then (pySplitExt (pyBasename a.workflowPath)).1 ++ "-package" else n
      | none => (pySplitExt (pyBasename a.workflowPath)).1 ++ "-package"
    let outputDir :=
      match a.outputDir with
      | some d => if d = "" then a.cwd else d
      | none => a.cwd
    let fs1 := fs0.mkdirs outputDir
    let tempDir := pyJoin outputDir outputName
    let tmpExisted := fs1.pathExists tempDir
    let civPath := pyJoin tempDir "civitai_config.json"
    let civContent : Option (List Nat) :=
      if tmpExisted && fs1.isFile civPath then some (fs1.read civPath) else none
    if tmpExisted && !ui.overwrite then (fs1, .cancelled)
    else
      let fs2 :=
        if tmpExisted then
          let fsr := (fs1.removeTree tempDir).mkdirs tempDir
          match civContent with
          | some c => fsr.writeFile civPath c
          | none => fsr
        else fs1.mkdirs tempDir
      let fs3 := (fs2.mkdirs (pyJoin tempDir "workflows")).mkdirs (pyJoin tempDir "custom_nodes")
      let fs4 := MODEL_TYPES.foldl
        (fun f mt => f.mkdirs (pyJoin (pyJoin tempDir "models") mt.1)) fs3
      let fs5 :=
        match a.civitaiApiKey with
        | some k =>
          if k = "" then fs4
          else fs4.writeFile (pyJoin tempDir "civitai_config.json") (ext.encodeApiKey k)
        | none => fs4
      let fs6 := fs5.copy2 a.workflowPath
        (pyJoin (pyJoin tempDir "workflows") (pyBasename a.workflowPath))
      let deps :=
        match ext.jsonOf (fs6.read a.workflowPath) with
        | some wf => parseWorkflow catalog wf
        | none => ⟨[], []⟩
      let nodesList :=
        if deps.customNodes.isEmpty then []
        else if a.includeManager then
          let mpath := pyJoin (pyJoin a.comfyuiPath "custom_nodes") "ComfyUI-Manager"
          if fs6.pathExists mpath &&
              !(deps.customNodes.any (fun nd => strLower nd.1 = "comfyui-manager")) then
            deps.customNodes ++ [("ComfyUI-Manager", mpath)]
          else deps.customNodes
        else deps.customNodes
      let copied := nodesList.foldl
        (fun acc nd =>
          (copyTreeFilteredFS acc.1 nd.2 (pyJoin (pyJoin tempDir "custom_nodes") nd.1),
            acc.2 ++ ["custom_nodes/" ++ nd.1]))
        (fs6, ([] : List String))
      let fs7 := copied.1
      let nodesProcessed := copied.2
      let reqs := if deps.customNodes.isEmpty then [] else collectAllReqs ext fs6 nodesList
      let toProcess := ui.discover deps.modelReferences
      let stFinal := processModels ext.md5hex a.sizeThreshold ui tempDir
        ⟨fs7, [], []⟩ toProcess
      let fs8 := stFinal.fs.writeFile (pyJoin tempDir "config.json")
        (ext.encodeConfig outputName nodesProcessed stFinal.externalModels reqs
          stFinal.modelsProcessed)
      let downloadSrc := pyJoin a.scriptDir "model_downloader.py"
      let fs9 :=
        if !stFinal.externalModels.isEmpty && fs8.pathExists downloadSrc then
          fs8.copy2 downloadSrc (pyJoin tempDir "download_models.py")
        else fs8
      let fs10 := fs9.writeFile (pyJoin tempDir "README.md")
        (ext.renderReadme outputName (pyBasename a.workflowPath) nodesProcessed
          stFinal.modelsProcessed stFinal.externalModels)
      let zipPath := pyJoin outputDir (outputName ++ ".zip")
      let zcontents := (fs10.walk tempDir).flatMap
        (fun entry => entry.2.2.map
          (fun f => (pyRelpath (pyJoin entry.1 f) tempDir, fs10.read (pyJoin entry.1 f))))
      let fs11 := fs10.writeFile zipPath (ext.zipBytes zcontents)
      let fs12 := if ui.cleanup then fs11.removeTree tempDir else fs11
      (fs12, .made zipPath)

/-! ## Catalog key lemmas -/

theorem dictHasKey_dictInsert_self (d : List (String × String)) (k v : String) :
    dictHasKey (dictInsert d k v) k = true := by
  unfold dictInsert dictHasKey
  split
  case isTrue h =>
    rcases List.any_eq_true.mp h with ⟨x, hx, hxk⟩
    simp only [decide_eq_true_eq] at hxk
    refine List.any_eq_true.mpr
      ⟨(fun p => if p.1 = k then (k, v) else p) x, List.mem_map_of_mem _ hx, ?_⟩
    simp [hxk]
  case isFalse h =>
    exact List.any_eq_true.mpr ⟨(k, v), by simp, by simp⟩

theorem dictHasKey_dictInsert_mono (d : List (String × String)) (k v q : String)
    (h : dictHasKey d q = true) : dictHasKey (dictInsert d k v) q = true := by
  unfold dictInsert dictHasKey at *
  split
  case isTrue hk =>
    rcases List.any_eq_true.mp h with ⟨x, hx, hxq⟩
    simp only [decide_eq_true_eq] at hxq
    by_cases hxk : x.1 = k
    · refine List.any_eq_true.mpr ⟨(k, v), ?_, ?_⟩
      · have := List.mem_map_of_mem (fun p => if p.1 = k then (k, v) else p) hx
        simpa [hxk] using this
      · simp [← hxq, hxk]
    · refine List.any_eq_true.mpr ⟨x, ?_, by simp [hxq]⟩
      have := List.mem_map_of_mem (fun p => if p.1 = k then (k, v) else p) hx
      simpa [hxk] using this
  case isFalse hk =>
    simp only [List.any_append]
    rw [h]
    simp

theorem dictHasKey_foldl_mono {β : Type} (g : List (String × String) → β → List (String × String))
    (hg : ∀ d b k, dictHasKey d k = true → dictHasKey (g d b) k = true)
    (l : List β) (d : List (String × String)) (k : String)
    (h : dictHasKey d k = true) : dictHasKey (l.foldl g d) k = true := by
  induction l generalizing d with
  | nil => simpa
  | cons b bs ih => exact ih _ (hg _ _ _ h)

theorem catalogStep_hasKey_mono (c : String) (d : List (String × String)) (f : PluginFolder)
    (q : String) (h : dictHasKey d q = true) : dictHasKey (catalogStep c d f) q = true := by
  unfold catalogStep
  apply dictHasKey_foldl_mono
  · intro d1 pre k hk
    apply dictHasKey_foldl_mono
    · intro d2 suf k2 hk2
      dsimp only
      apply dictHasKey_dictInsert_mono
      split
      · exact dictHasKey_dictInsert_mono _ _ _ _ hk2
      · exact hk2
    · exact hk
  · apply dictHasKey_foldl_mono
    · intro d1 m k hk
      dsimp only
      split
      · exact dictHasKey_dictInsert_mono _ _ _ _ hk
      · exact dictHasKey_dictInsert_mono _ _ _ _ (dictHasKey_dictInsert_mono _ _ _ _ hk)
    · apply dictHasKey_foldl_mono
      · intro d1 i k hk
        exact dictHasKey_dictInsert_mono _ _ _ _ hk
      · exact dictHasKey_dictInsert_mono _ _ _ _ h

theorem catalogStep_hasKey_self (c : String) (d : List (String × String)) (f : PluginFolder) :
    dictHasKey (catalogStep c d f) (strLower f.name) = true := by
  unfold catalogStep
  apply dictHasKey_foldl_mono
  · intro d1 pre k hk
    apply dictHasKey_foldl_mono
    · intro d2 suf k2 hk2
      dsimp only
      apply dictHasKey_dictInsert_mono
      split
      · exact dictHasKey_dictInsert_mono _ _ _ _ hk2
      · exact hk2
    · exact hk
  · apply dictHasKey_foldl_mono
    · intro d1 m k hk
      dsimp only
      split
      · exact dictHasKey_dictInsert_mono _ _ _ _ hk
      · exact dictHasKey_dictInsert_mono _ _ _ _ (dictHasKey_dictInsert_mono _ _ _ _ hk)
    · apply dictHasKey_foldl_mono
      · intro d1 i k hk
        exact dictHasKey_dictInsert_mono _ _ _ _ hk
      · exact dictHasKey_dictInsert_self _ _ _

theorem foldl_catalogStep_hasKey (c : String) (l : List PluginFolder)
    (acc : List (String × String)) (f : PluginFolder) (hf : f ∈ l) :
    dictHasKey (l.foldl (catalogStep c) acc) (strLower f.name) = true := by
  induction l generalizing acc with
  | nil => cases hf
  | cons g gs ih =>
    rcases List.mem_cons.mp hf with rfl | h2
    · exact dictHasKey_foldl_mono _ (fun d b k => catalogStep_hasKey_mono c d b k) gs _ _
        (catalogStep_hasKey_self _ _ _)
    · exact ih _ h2

theorem buildCatalog_hasKey (c : String) (folders : List PluginFolder) (f : PluginFolder)
    (hf : f ∈ folders) : dictHasKey (buildCatalog c folders) (strLower f.name) = true :=
  foldl_catalogStep_hasKey c folders [] f hf

theorem dictGet_isSome_of_hasKey (d : List (String × String)) (k : String)
    (h : dictHasKey d k = true) : ∃ v, dictGet d k = some v := by
  unfold dictHasKey at h
  unfold dictGet
  rcases List.any_eq_true.mp h with ⟨x, hx, hxk⟩
  have hs : (d.find? (fun p => p.1 = k)).isSome := List.find?_isSome.mpr ⟨x, hx, hxk⟩
  rcases Option.isSome_iff_exists.mp hs with ⟨y, hy⟩
  exact ⟨y.2, by rw [hy]; rfl⟩

/-- C3: a plugin identifier equal (ignoring case) to the folder name of an
installed plugin resolves through the exact dictionary lookup — the
folder-name key is registered once and never removed by any later
registration — so the fuzzy strategies are never reached. -/
theorem claim_C3_exact_folder_resolution (comfyuiPath : String)
    (folders : List PluginFolder) (f : PluginFolder) (nodeId : String)
    (hf : f ∈ folders) (hid : strLower nodeId = strLower f.name) :
    ∃ path, resolveNodeId (buildCatalog comfyuiPath folders) (strLower nodeId) =
      NodeResolution.exact (pyBasename path) path := by
  have hk : dictHasKey (buildCatalog comfyuiPath folders) (strLower nodeId) = true := by
    rw [hid]
    exact buildCatalog_hasKey comfyuiPath folders f hf
  rcases dictGet_isSome_of_hasKey _ _ hk with ⟨p, hp⟩
  refine ⟨p, ?_⟩
  unfold resolveNodeId
  rw [hp]

theorem claim_C3_witness :
    ∃ path, resolveNodeId (buildCatalog "/comfy" [⟨"FooPack", [], []⟩]) (strLower "FOOPACK") =
      NodeResolution.exact (pyBasename path) path :=
  claim_C3_exact_folder_resolution "/comfy" [⟨"FooPack", [], []⟩] ⟨"FooPack", [], []⟩
    "FOOPACK" (by simp) (by decide)

/-! ## C9: the unknown/comfyui-… identifier -/

/-- The catalog built from an installed-plugins directory holding exactly the
folder Upscale-Nodes. -/
def upscaleCatalog : List (String × String) :=
  buildCatalog "/comfy" [⟨"Upscale-Nodes", [], []⟩]

set_option maxRecDepth 10000

/-- C9, counterexample: with only the folder Upscale-Nodes installed, the
identifier unknown/comfyui-upscale-nodes is NOT resolved by the fuzzy stage:
the catalog builder registers the unknown/<variation> alias literally, so
the exact dictionary lookup already succeeds. -/
theorem claim_C9_counterexample :
    (resolveNodeId upscaleCatalog "unknown/comfyui-upscale-nodes").isFuzzy = false := by
  decide

/-- C9, amended: the identifier unknown/comfyui-upscale-nodes is resolved to
the install path of the folder Upscale-Nodes, but via the exact-match
dictionary lookup (the builder pre-registers every unknown/<variation>
alias), not via the fuzzy separator-normalized-equality stage. -/
theorem claim_C9_amended_exact_resolution :
    resolveNodeId upscaleCatalog "unknown/comfyui-upscale-nodes" =
      NodeResolution.exact "Upscale-Nodes" "/comfy/custom_nodes/Upscale-Nodes" := by
  decide

/-! ## Deduplication membership -/

theorem mem_dedupList_foldl {α : Type} [DecidableEq α] (l acc : List α) (x : α)
    (h : x ∈ l.foldl (fun acc y => if acc.contains y then acc else acc ++ [y]) acc) :
    x ∈ acc ∨ x ∈ l := by
  induction l generalizing acc with
  | nil => exact Or.inl (by simpa using h)
  | cons y ys ih =>
    simp only [List.foldl_cons] at h
    rcases ih _ h with hacc | hys
    · by_cases hy : acc.contains y
      · simp only [hy, if_true] at hacc
        exact Or.inl hacc
      · simp only [hy, if_false, Bool.false_eq_true] at hacc
        rcases List.mem_append.mp hacc with h1 | h2
        · exact Or.inl h1
        · simp only [List.mem_singleton] at h2
          subst h2
          exact Or.inr (List.mem_cons_self _ _)
    · exact Or.inr (List.mem_cons_of_mem _ hys)

theorem mem_of_mem_dedupList {α : Type} [DecidableEq α] (l : List α) (x : α)
    (h : x ∈ dedupList l) : x ∈ l := by
  unfold dedupList at h
  rcases mem_dedupList_foldl l [] x h with h0 | h1
  · cases h0
  · exact h1

/-- C4: every model reference extracted by parse_workflow is a string widget
value of length at least five that is not one of the sentinel literals
(case-insensitively) and carries one of the seven model extensions
(case-insensitively); no violating value is ever extracted. -/
theorem claim_C4_extraction_filter (catalog : List (String × String)) (wf : JVal)
    (s : String) (hs : s ∈ (parseWorkflow catalog wf).modelReferences) :
    5 ≤ s.length ∧
      denylistValues.contains (strLower s) = false ∧
      modelExtensions.any (fun e => strEndsWith (strLower s) e) = true := by
  unfold parseWorkflow at hs
  split at hs
  · simp at hs
  · split at hs
    · split at hs
      · simp at hs
      · unfold extractFromNodes at hs
        simp only at hs
        have hm := mem_of_mem_dedupList _ _ hs
        rcases List.mem_filterMap.mp hm with ⟨v, _, hkeep⟩
        cases v with
        | jstr str =>
          simp only [keepModelValue] at hkeep
          split_ifs at hkeep with h1 h2 h3 h4 <;> cases hkeep
          refine ⟨by omega, ?_, h4⟩
          simpa using h2
        | jnum n => cases hkeep
        | jbool b => cases hkeep
        | jnull => cases hkeep
        | jarr xs => cases hkeep
        | jobj kvs => cases hkeep
    · simp at hs

theorem claim_C4_witness :
    5 ≤ ("sd_xl_base.safetensors" : String).length ∧
      denylistValues.contains (strLower "sd_xl_base.safetensors") = false ∧
      modelExtensions.any (fun e => strEndsWith (strLower "sd_xl_base.safetensors") e) = true :=
  claim_C4_extraction_filter []
    (.jobj [("nodes", .jarr [.jobj [("widgets_values",
      .jarr [.jstr "sd_xl_base.safetensors", .jstr "true", .jnum 7])]])])
    "sd_xl_base.safetensors" (by decide)

/-! ## C5: documents with no identifiable node array -/

theorem scanTop_eq_none (kvs : List (String × JVal))
    (h : kvs.all (fun kv =>
      match kv.2 with
      | .jarr (y :: _) =>
        match y with
        | .jobj o => (jlookup o "type").isNone
        | _ => true
      | _ => true) = true) : scanTop kvs = none := by
  unfold scanTop
  rw [List.findSome?_eq_none_iff]
  intro kv hkv
  have hc := List.all_eq_true.mp h kv hkv
  cases hv : kv.2 with
  | jarr xs =>
    cases xs with
    | nil => rfl
    | cons y ys =>
      cases y with
      | jobj o =>
        rw [hv] at hc
        simp only at hc
        simp only [hv]
        rw [Option.isNone_iff_eq_none] at hc
        simp [hc]
      | jstr a => simp [hv]
      | jnum a => simp [hv]
      | jbool a => simp [hv]
      | jnull => simp [hv]
      | jarr a => simp [hv]
  | jobj o => simp [hv]
  | jstr a => simp [hv]
  | jnum a => simp [hv]
  | jbool a => simp [hv]
  | jnull => simp [hv]

theorem findNodes_eq_none_of_spec (wf : JVal) (h : specNoNodeArray wf = true) :
    findNodes wf = none := by
  cases wf with
  | jobj kvs =>
    unfold specNoNodeArray at h
    simp only [Bool.and_eq_true] at h
    obtain ⟨⟨h1, h2⟩, h3⟩ := h
    have hn := Option.isNone_iff_eq_none.mp h1
    cases hw : jlookup kvs "workflow" with
    | none => simp [findNodes, hn, hw, scanTop_eq_none kvs h3]
    | some w =>
      cases w with
      | jobj wkvs =>
        rw [hw] at h2
        simp only [Option.isNone_iff_eq_none] at h2
        simp [findNodes, hn, hw, h2, scanTop_eq_none kvs h3]
      | jstr a => simp [findNodes, hn, hw, scanTop_eq_none kvs h3]
      | jnum a => simp [findNodes, hn, hw, scanTop_eq_none kvs h3]
      | jbool a => simp [findNodes, hn, hw, scanTop_eq_none kvs h3]
      | jnull => simp [findNodes, hn, hw, scanTop_eq_none kvs h3]
      | jarr a => simp [findNodes, hn, hw, scanTop_eq_none kvs h3]
  | jarr xs =>
    cases xs with
    | nil => rfl
    | cons y ys =>
      cases y with
      | jobj o =>
        unfold specNoNodeArray at h
        simp at h
      | jstr a => rfl
      | jnum a => rfl
      | jbool a => rfl
      | jnull => rfl
      | jarr a => rfl
  | jstr a => rfl
  | jnum a => rfl
  | jbool a => rfl
  | jnull => rfl

/-- C5: a workflow document in which no node array can be identified (no
nodes key, no nested workflow object with nodes, no top-level list value
whose first element is an object carrying a type key, not itself a list with
an object first element) parses to the empty result without error. -/
theorem claim_C5_unidentifiable_gives_empty (catalog : List (String × String)) (wf : JVal)
    (h : specNoNodeArray wf = true) :
    parseWorkflow catalog wf = ⟨[], []⟩ := by
  unfold parseWorkflow
  rw [findNodes_eq_none_of_spec wf h]

/-! ## C2: stage-3 extension guessing -/

theorem takeWhile_eq_self_of_all {α : Type} (p : α → Bool) :
    ∀ l : List α, (∀ x ∈ l, p x = true) → l.takeWhile p = l := by
  intro l
  induction l with
  | nil => intro _; rfl
  | cons a as ih =>
    intro h
    simp [List.takeWhile_cons, h a (List.mem_cons_self _ _), ih
      (fun x hx => h x (List.mem_cons_of_mem _ hx))]

theorem listIsInfix_singleton (c : Char) (l : List Char) :
    listIsInfix [c] l = true ↔ c ∈ l := by
  induction l with
  | nil => simp [listIsInfix, List.isPrefixOf]
  | cons d ds ih =>
    simp only [listIsInfix, List.isPrefixOf, Bool.or_eq_true, Bool.and_eq_true, List.mem_cons]
    constructor
    · rintro (⟨h1, _⟩ | h2)
      · exact Or.inl (by simpa using h1.symm)
      · exact Or.inr (ih.mp h2)
    · rintro (rfl | h2)
      · exact Or.inl ⟨by simp, by simp [List.isPrefixOf]⟩
      · exact Or.inr (ih.mpr h2)

theorem dot_not_mem_of_no_dot (b : String) (h : strContains b "." = false) :
    '.' ∉ b.data := by
  intro hmem
  have : strContains b "." = true := (listIsInfix_singleton '.' b.data).mpr hmem
  rw [h] at this
  cases this

theorem strEndsWith_false_of_no_dot (b e : String) (hb : '.' ∉ b.data)
    (he : '.' ∈ e.data) : strEndsWith b e = false := by
  by_contra h
  have h2 : e.data.isSuffixOf b.data = true := by
    simpa [strEndsWith] using h
  have h3 : e.data <:+ b.data := List.isSuffixOf_iff_suffix.mp h2
  exact hb (h3.subset he)

theorem pySplitExt_no_dot (b : String) (h : strContains b "." = false) :
    pySplitExt b = (b, "") := by
  have hmem := dot_not_mem_of_no_dot b h
  have heq : ((b.data.reverse.takeWhile (· ≠ '/')).takeWhile (· ≠ '.')) =
      b.data.reverse.takeWhile (· ≠ '/') := by
    apply takeWhile_eq_self_of_all
    intro x hx
    have hx1 : x ∈ b.data.reverse := (List.takeWhile_sublist _).subset hx
    have hx2 : x ∈ b.data := List.mem_reverse.mp hx1
    simp only [decide_eq_true_eq]
    intro hxe
    exact hmem (hxe ▸ hx2)
  unfold pySplitExt
  dsimp only
  rw [heq]
  simp

/-- The six plain filename variations tried before the extension-appended
candidates. -/
def plainVariations (b : String) : List String :=
  [b, strLower b, strReplaceChar b ' ' '_', strReplaceChar (strLower b) ' ' '_',
   strReplaceChar b '_' ' ', strReplaceChar (strLower b) '_' ' ']

/-- C2: for a reference name with no extension, the candidate list ends with
the three extension-appended names in exactly the order .safetensors, .ckpt,
.pt, and the stage-3 flattened-name search — once the plain variations are
absent from the directory — returns the first of those three candidates that
exists on disk. -/
theorem claim_C2_stage3_extension_order (fs : FS) (base b : String)
    (hnd : strContains b "." = false)
    (h6 : ∀ v ∈ plainVariations b, fs.pathExists (pyJoin base v) = false) :
    possibleFilenames b =
      plainVariations b ++ [b ++ ".safetensors", b ++ ".ckpt", b ++ ".pt"] ∧
    resolveStep3 fs [base] (possibleFilenames b) =
      ([b ++ ".safetensors", b ++ ".ckpt", b ++ ".pt"].map (pyJoin base)).find?
        (fun p => fs.pathExists p) := by
  have hmem := dot_not_mem_of_no_dot b hnd
  have hse := strEndsWith_false_of_no_dot b ".safetensors" hmem (by decide)
  have hck := strEndsWith_false_of_no_dot b ".ckpt" hmem (by decide)
  have hpt := strEndsWith_false_of_no_dot b ".pt" hmem (by decide)
  have hsp := pySplitExt_no_dot b hnd
  have hposs : possibleFilenames b =
      plainVariations b ++ [b ++ ".safetensors", b ++ ".ckpt", b ++ ".pt"] := by
    unfold possibleFilenames plainVariations
    rw [hse, hck, hpt, hsp]
    simp
  have e1 := h6 b (by simp [plainVariations])
  have e2 := h6 (strLower b) (by simp [plainVariations])
  have e3 := h6 (strReplaceChar b ' ' '_') (by simp [plainVariations])
  have e4 := h6 (strReplaceChar (strLower b) ' ' '_') (by simp [plainVariations])
  have e5 := h6 (strReplaceChar b '_' ' ') (by simp [plainVariations])
  have e6 := h6 (strReplaceChar (strLower b) '_' ' ') (by simp [plainVariations])
  refine ⟨hposs, ?_⟩
  rw [hposs]
  unfold resolveStep3 existsFirst plainVariations
  by_cases p1 : fs.pathExists (pyJoin base (b ++ ".safetensors")) = true <;>
    by_cases p2 : fs.pathExists (pyJoin base (b ++ ".ckpt")) = true <;>
      by_cases p3 : fs.pathExists (pyJoin base (b ++ ".pt")) = true <;>
        simp [List.findSome?_cons, List.find?, e1, e2, e3, e4, e5, e6, p1, p2, p3]

/-- A directory holding only model.ckpt, for the stage-3 witness. -/
def stage3FS : FS := ⟨[("/mb/model.ckpt", [1])], ["/mb"]⟩

theorem claim_C2_witness :
    possibleFilenames "model" =
      plainVariations "model" ++
        ["model" ++ ".safetensors", "model" ++ ".ckpt", "model" ++ ".pt"] ∧
    resolveStep3 stage3FS ["/mb"] (possibleFilenames "model") =
      (["model" ++ ".safetensors", "model" ++ ".ckpt", "model" ++ ".pt"].map
        (pyJoin "/mb")).find? (fun p => stage3FS.pathExists p) :=
  claim_C2_stage3_extension_order stage3FS "/mb" "model" (by decide) (by decide)

/-! ## C10: totality of the filename classifier -/

/-- The keyword literals of the .pt/.pth and .onnx special cases of the
filename classifier. -/
def classifierKeywords : List String :=
  ["sam", "/sam/", "gfpgan", "codeformer", "face", "/facerestore/",
   "upscale", "esrgan", "/upscaler/", "/upscale_models/",
   "inswapper", "insight", "/insightface/"]

/-- C10: the filename classifier is total — every input is assigned some
category — and a filename ending in none of .safetensors/.ckpt and hitting
none of the .pt/.pth/.onnx keywords (so in particular unrecognized .pth,
.bin, .onnx and .msgpack names) falls through to checkpoints. -/
theorem claim_C10_classifier_total :
    (∀ f : String, ∃ t, guessModelTypeFromFilename f = some t) ∧
    (∀ f : String,
      strEndsWith (strLower f) ".safetensors" = false →
      strEndsWith (strLower f) ".ckpt" = false →
      (∀ k ∈ classifierKeywords, strContains (strLower f) k = false) →
      guessModelTypeFromFilename f = some "checkpoints") := by
  constructor
  · intro f
    unfold guessModelTypeFromFilename
    dsimp only
    repeat' split
    all_goals exact ⟨_, rfl⟩
  · intro f h1 h2 hk
    have k01 := hk "sam" (by decide)
    have k02 := hk "/sam/" (by decide)
    have k03 := hk "gfpgan" (by decide)
    have k04 := hk "codeformer" (by decide)
    have k05 := hk "face" (by decide)
    have k06 := hk "/facerestore/" (by decide)
    have k07 := hk "upscale" (by decide)
    have k08 := hk "esrgan" (by decide)
    have k09 := hk "/upscaler/" (by decide)
    have k10 := hk "/upscale_models/" (by decide)
    have k11 := hk "inswapper" (by decide)
    have k12 := hk "insight" (by decide)
    have k13 := hk "/insightface/" (by decide)
    unfold guessModelTypeFromFilename
    simp only [h1, h2, k01, k02, k03, k04, k05, k06, k07, k08, k09, k10, k11, k12, k13,
      Bool.or_self, Bool.or_false, Bool.false_or, Bool.false_and, Bool.and_false,
      if_false, Bool.false_eq_true, ite_false]
    repeat' split
    all_goals rfl

theorem claim_C10_witness : guessModelTypeFromFilename "model.bin" = some "checkpoints" :=
  claim_C10_classifier_total.2 "model.bin" (by decide) (by decide) (by decide)

/-! ## C8: determinism of path resolution -/

/-- C8: two resolutions of the same model type and name against the same
filesystem snapshot and search-path table agree — either both produce the
same path or both produce none.  The embedded resolver threads the snapshot
explicitly and performs no write, mirroring that _resolve_model_path only
reads the filesystem. -/
theorem claim_C8_resolution_deterministic (fs : FS) (tbl : ModelPaths) (mt mn : String)
    (r1 r2 : Option String)
    (h1 : resolveModelPath fs tbl mt mn = r1)
    (h2 : resolveModelPath fs tbl mt mn = r2) :
    (∃ p, r1 = some p ∧ r2 = some p) ∨ (r1 = none ∧ r2 = none) := by
  subst h1
  subst h2
  cases h : resolveModelPath fs tbl mt mn with
  | none => exact Or.inr ⟨rfl, rfl⟩
  | some p => exact Or.inl ⟨p, rfl, rfl⟩

def determinismFS : FS :=
  ⟨[("/c/models/checkpoints/a.ckpt", [1, 2])], ["/c/models/checkpoints"]⟩

def determinismTbl : ModelPaths := [("checkpoints", ["/c/models/checkpoints"])]

theorem claim_C8_witness :
    (∃ p, resolveModelPath determinismFS determinismTbl "checkpoints" "a.ckpt" = some p ∧
        resolveModelPath determinismFS determinismTbl "checkpoints" "a.ckpt" = some p) ∨
      (resolveModelPath determinismFS determinismTbl "checkpoints" "a.ckpt" = none ∧
        resolveModelPath determinismFS determinismTbl "checkpoints" "a.ckpt" = none) :=
  claim_C8_resolution_deterministic determinismFS determinismTbl "checkpoints" "a.ckpt"
    _ _ rfl rfl

/-! ## C7: the filtered plugin-directory copy -/

theorem copyWalk_sound (fs : FS) (fuel : Nat) :
    ∀ (root : String) (e : List String × String × List Nat), e ∈ copyWalk fs fuel root →
      fileKeepB e.2.1 e.2.2 = true ∧ ∀ d ∈ e.1, skipDirsList.contains d = false := by
  induction fuel with
  | zero => intro root e he; cases he
  | succ n ih =>
    intro root e he
    unfold copyWalk at he
    dsimp only at he
    rcases List.mem_append.mp he with h1 | h2
    · rcases List.mem_map.mp h1 with ⟨f, hf, rfl⟩
      have hk := List.mem_filter.mp hf
      exact ⟨hk.2, by intro d hd; cases hd⟩
    · rcases List.mem_flatMap.mp h2 with ⟨d, hd, hin⟩
      rcases List.mem_map.mp hin with ⟨f, hf, rfl⟩
      obtain ⟨hk, hp⟩ := ih (pyJoin root d) f hf
      refine ⟨hk, ?_⟩
      intro d2 hd2
      rcases List.mem_cons.mp hd2 with rfl | hd3
      · have := (List.mem_filter.mp hd).2
        simpa using this
      · exact hp d2 hd3

/-- C7: every file the filtered copy takes from a plugin directory is within
the 100 MiB ceiling or carries an always-keep extension, lies under no
denylisted directory name, and matches no denylisted file pattern. -/
theorem claim_C7_copy_tree_filter (fs : FS) (src : String)
    (e : List String × String × List Nat) (he : e ∈ copyTreeEntries fs src) :
    (e.2.2.length ≤ maxCopyFileSize ∨
      keepExtensions.any (fun x => strEndsWith e.2.1 x) = true) ∧
    (∀ d ∈ e.1, skipDirsList.contains d = false) ∧
    (∀ pat ∈ skipPatternsList, fnmatchB e.2.1 pat = false) := by
  obtain ⟨hk, hp⟩ := copyWalk_sound fs (fs.dirs.length + 1) src e he
  unfold fileKeepB at hk
  rw [Bool.and_eq_true] at hk
  obtain ⟨h1, h2⟩ := hk
  refine ⟨?_, hp, ?_⟩
  · have h2' : e.2.2.length ≤ maxCopyFileSize ∨
        keepExtensions.any (fun x => strEndsWith e.2.1 x) = true := by
      simpa using h2
    exact h2'
  · intro pat hpat
    have hno : skipPatternsList.any (fun pat => fnmatchB e.2.1 pat) = false := by
      simpa using h1
    rcases hfm : fnmatchB e.2.1 pat with _ | _
    · rfl
    · exact absurd (List.any_eq_true.mpr ⟨pat, hpat, hfm⟩) (by simp [hno])

/-- A small plugin directory: a kept root file, a pattern-skipped file, a
pruned .git directory and a regular subdirectory. -/
def sampleFS : FS :=
  ⟨[("/p/loader.py", [0]), ("/p/junk.pyc", [0]), ("/p/.git/HEAD", [1]),
    ("/p/sub/notes.txt", [1, 2])],
   ["/p", "/p/.git", "/p/sub"]⟩

theorem claim_C7_witness :
    ((["sub"], "notes.txt", ([1, 2] : List Nat)).2.2.length ≤ maxCopyFileSize ∨
      keepExtensions.any
        (fun x => strEndsWith (["sub"], "notes.txt", ([1, 2] : List Nat)).2.1 x) = true) ∧
    (∀ d ∈ (["sub"], "notes.txt", ([1, 2] : List Nat)).1,
      skipDirsList.contains d = false) ∧
    (∀ pat ∈ skipPatternsList,
      fnmatchB (["sub"], "notes.txt", ([1, 2] : List Nat)).2.1 pat = false) :=
  claim_C7_copy_tree_filter sampleFS "/p" (["sub"], "notes.txt", [1, 2]) (by decide)

/-! ## C1: deferred oversized models -/

theorem FS.read_mkdirs (fs : FS) (d p : String) : (fs.mkdirs d).read p = fs.read p := by
  unfold FS.mkdirs FS.read
  split <;> rfl

/-- C1: an oversized model whose decision is defer-with-URL (choice 2, a
non-empty URL) contributes exactly one entry to the deferred list — name,
type, path, url, the MD5 content hash of the resolved file and its size —
and leaves the included-models mapping untouched. -/
theorem claim_C1_defer_with_url (md5hex : List Nat → String) (thr : Nat) (ui : UI)
    (tempDir mtype : String) (st : AssemblyState) (modelName modelPath url : String)
    (hpath : modelPath ≠ "")
    (hex : st.fs.pathExists modelPath = true)
    (hsize : st.fs.size modelPath > thr)
    (hdec : ui.oversized mtype modelName = ("2", url))
    (hurl : url ≠ "") :
    (processOneModel md5hex thr ui tempDir mtype st (modelName, modelPath)).externalModels =
      st.externalModels ++
        [{ name := pyBasename modelName, mtype := mtype,
           path := if strContains modelName "/" || strContains modelName "\\" then
               some modelName else none,
           url := url,
           hash := calculateFileHash md5hex st.fs modelPath,
           size := st.fs.size modelPath }] ∧
    (processOneModel md5hex thr ui tempDir mtype st (modelName, modelPath)).modelsProcessed =
      st.modelsProcessed := by
  unfold processOneModel
  dsimp only
  rw [if_neg hpath, hex]
  simp only [Bool.not_true, Bool.false_eq_true, if_false, if_pos hsize, hdec]
  simp only [show (("2" : String) = "1") = False from by simp,
    show (("2" : String) = "2") = True from by simp, if_false, if_true, ite_true, ite_false]
  rw [if_pos hurl]
  by_cases hsub : (strContains modelName "/" || strContains modelName "\\") = true <;>
    simp [hsub, calculateFileHash, FS.read_mkdirs]

def deferUI : UI := ⟨true, fun _ => [], fun _ _ => ("2", "https://example.com/big"), false⟩

def deferState : AssemblyState :=
  ⟨⟨[("/m/big.safetensors", [1, 2, 3])], ["/m"]⟩, [], [("checkpoints", [])]⟩

theorem claim_C1_witness :
    (processOneModel (fun _ => "d41d8") 2 deferUI "/t" "checkpoints" deferState
        ("big.safetensors", "/m/big.safetensors")).externalModels =
      deferState.externalModels ++
        [{ name := pyBasename "big.safetensors", mtype := "checkpoints",
           path := if strContains "big.safetensors" "/" ||
               strContains "big.safetensors" "\\" then
               some "big.safetensors" else none,
           url := "https://example.com/big",
           hash := calculateFileHash (fun _ => "d41d8") deferState.fs "/m/big.safetensors",
           size := deferState.fs.size "/m/big.safetensors" }] ∧
    (processOneModel (fun _ => "d41d8") 2 deferUI "/t" "checkpoints" deferState
        ("big.safetensors", "/m/big.safetensors")).modelsProcessed =
      deferState.modelsProcessed :=
  claim_C1_defer_with_url (fun _ => "d41d8") 2 deferUI "/t" "checkpoints" deferState
    "big.safetensors" "/m/big.safetensors" "https://example.com/big"
    (by decide) (by decide) (by decide) rfl (by decide)

/-! ## C6: a missing workflow file aborts before any effect -/

/-- C6: when the workflow path does not exist, create_package fails with
FileNotFoundError and returns the filesystem unchanged: no directory is
created, no file is copied, no manifest is written. -/
theorem claim_C6_missing_workflow_aborts (ext : Ext) (ui : UI)
    (catalog : List (String × String)) (fs : FS) (a : PkgArgs)
    (h : fs.pathExists a.workflowPath = false) :
    createPackage ext ui catalog fs a = (fs, CreateOutcome.fileNotFound) := by
  unfold createPackage
  rw [h]
  simp

def emptyExt : Ext :=
  ⟨fun _ => "", fun _ => none, fun _ => [], fun _ => [],
   fun _ _ _ _ _ => [], fun _ _ _ _ _ => [], fun _ => []⟩

def emptyUI : UI := ⟨true, fun _ => [], fun _ _ => ("3", ""), true⟩

def missingArgs : PkgArgs :=
  ⟨"/missing/workflow.json", none, none, none, 0, true, "/comfy", "/scripts", "/cwd"⟩

theorem claim_C6_witness :
    createPackage emptyExt emptyUI [] ⟨[], []⟩ missingArgs =
      (⟨[], []⟩, CreateOutcome.fileNotFound) :=
  claim_C6_missing_workflow_aborts emptyExt emptyUI [] ⟨[], []⟩ missingArgs (by decide)

theorem claim_C5_witness :
    specNoNodeArray (.jobj [("prompt", .jstr "hello"), ("steps", .jnum 20)]) = true ∧
      parseWorkflow [] (.jobj [("prompt", .jstr "hello"), ("steps", .jnum 20)]) = ⟨[], []⟩ :=
  ⟨by decide, claim_C5_unidentifiable_gives_empty []
    (.jobj [("prompt", .jstr "hello"), ("steps", .jnum 20)]) (by decide)⟩

end ComfyPack
